import Mathlib

/-!
Verification of the position-aware template-filling engine of `main_original.py`
(class `EnhancedAIDocGenerator`).  The table model is a list of rows, each row a
list of cell texts; dictionaries are association lists in insertion order, and
Python exceptions are an explicit `Except` channel where they matter.
-/

set_option autoImplicit false
set_option maxRecDepth 8192

namespace DocGen

/-! ## String primitives modelling Python operations -/

/-- Is the first character list a prefix of the second (models the inner step of
Python substring containment)? -/
def chPre : List Char → List Char → Bool
  | [], _ => true
  | _ :: _, [] => false
  | a :: s1, b :: s2 => a == b && chPre s1 s2

/-- Does the first character list occur contiguously inside the second? -/
def chSub : List Char → List Char → Bool
  | sub, [] => chPre sub []
  | sub, b :: rest => chPre sub (b :: rest) || chSub sub rest

/-- Python `sub in s` for strings: contiguous substring containment
(the empty string is contained in every string). -/
def pyIn (sub s : String) : Bool := chSub sub.data s.data

/-- Python whitespace characters stripped by `str.strip()` (ASCII subset;
the keys and labels in this program contain no exotic Unicode whitespace). -/
def pyIsSpace (c : Char) : Bool :=
  c == ' ' || c == '\t' || c == '\n' || c == '\r' || c == '\x0b' || c == '\x0c'

/-- Python `s.strip()`. -/
def pyStrip (s : String) : String :=
  ⟨((s.data.dropWhile pyIsSpace).reverse.dropWhile pyIsSpace).reverse⟩

/-- Split a character list on a separator character; Python semantics:
`"".split(c)` is `[""]`, separators at the ends produce empty segments. -/
def pySplitChars (sep : Char) : List Char → List (List Char)
  | [] => [[]]
  | c :: rest =>
      let r := pySplitChars sep rest
      if c == sep then [] :: r
      else
        match r with
        | [] => [[c]]
        | h :: t => (c :: h) :: t

/-- Python `s.split(sep)` for a one-character separator (the program only
splits on the one-character separator between key segments). -/
def pySplit (s : String) (sep : Char) : List String :=
  (pySplitChars sep s.data).map (fun l => ⟨l⟩)

/-- Value of a nonempty all-digit character list, else `none`. -/
def digitsVal (l : List Char) : Option Nat :=
  if l = [] then none
  else if l.all (fun c => c.isDigit) then
    some (l.foldl (fun acc c => acc * 10 + (c.toNat - '0'.toNat)) 0)
  else none

/-- Python `int(s)`: optional sign followed by at least one digit, otherwise a
`ValueError` (modelled as `none`).  Surrounding whitespace and digit-grouping
underscores cannot occur in the underscore-split segments this program parses. -/
def pyInt (s : String) : Option Int :=
  match s.data with
  | '+' :: rest => (digitsVal rest).map (fun n => (n : Int))
  | '-' :: rest => (digitsVal rest).map (fun n => -(n : Int))
  | l => (digitsVal l).map (fun n => (n : Int))

/-- Python `'_'.join(parts)`. -/
def joinUnderscore : List String → String
  | [] => ""
  | [s] => s
  | s :: rest => s ++ "_" ++ joinUnderscore rest

/-- Characters of `s` strictly before the first occurrence of `sep`
(all of `s` if `sep` does not occur): Python `s.split(sep)[0]`. -/
def splitFirst (sep : List Char) : List Char → List Char
  | [] => []
  | c :: rest => if chPre sep (c :: rest) then [] else c :: splitFirst sep rest

/-! ## Position descriptors and the key decoder (`_parse_position_key`) -/

/-- The dictionaries `_parse_position_key` builds: either
`{'row', 'col', 'field_name', 'fill_type': 'next_cell'}` or
`{'row', 'col': -1, 'context', 'field_name', 'fill_type': 'same_cell_with_context'}`.
The `'col': -1` sentinel of the second shape is never read by the matcher or
filler, so it is not carried. Coordinates are `Int`, exactly as Python stores
`int(parts[k]) - 1` without any sign check. -/
inductive PositionInfo where
  | next_cell (row col : Int) (field_name : String)
  | same_cell_with_context (row : Int) (context field_name : String)
  deriving DecidableEq, Repr

/-- The `field_name` entry of a descriptor. -/
def fieldNameOf : PositionInfo → String
  | .next_cell _ _ fn => fn
  | .same_cell_with_context _ _ fn => fn

/-- The exceptions the body of `_parse_position_key` can raise and its
`except (ValueError, IndexError)` clause catches. -/
inductive PyExc where
  | valueError
  | indexError
  deriving DecidableEq

/-- Body of `_parse_position_key` after `position_key.split('_')`, with the
exception channel explicit: a failing `int(...)` raises `ValueError`; the
`len(parts) < 4` guard returns `None` (not an exception); all list accesses are
within the guard so no `IndexError` arises. -/
def parse_body_parts (parts : List String) : Except PyExc (Option PositionInfo) :=
  match parts with
  | _p0 :: p1 :: p2 :: p3 :: rest =>
      match pyInt p1 with
      | none => .error .valueError
      | some n =>
          if p2 = "col" then
            match pyInt p3 with
            | none => .error .valueError
            | some m =>
                .ok (some (.next_cell (n - 1) (m - 1) (joinUnderscore rest)))
          else if p2 = "left" then
            .ok (some (.same_cell_with_context (n - 1) p3 (joinUnderscore rest)))
          else .ok none
  | _ => .ok none

/-- Body of `_parse_position_key` on the raw key. -/
def parse_body (position_key : String) : Except PyExc (Option PositionInfo) :=
  parse_body_parts (pySplit position_key '_')

/-- `parse_body_parts` with the `except` clause applied (every raised
exception becomes `None`). -/
def parse_parts (parts : List String) : Option PositionInfo :=
  match parse_body_parts parts with
  | .ok r => r
  | .error _ => none

/-- `_parse_position_key`: decode a raw position key to a descriptor or `None`. -/
def _parse_position_key (position_key : String) : Option PositionInfo :=
  match parse_body position_key with
  | .ok r => r
  | .error _ => none

/-! ## The cell-matching predicate (`_is_position_match`) -/

/-- `_is_position_match(row_idx, cell_idx, cell_text, position_info, row)`.
`row` is the live list of cell texts of the current row; the left-neighbour
access `row.cells[cell_idx - 1].text` is modelled with `getD` (as invoked by the
engine, `cell_idx` indexes into `row`, so the default is never consulted).
Note the left neighbour's text is read raw, not stripped. -/
def _is_position_match (row_idx cell_idx : Nat) (cell_text : String)
    (position_info : PositionInfo) (row : List String) : Bool :=
  match position_info with
  | .next_cell r c field_name =>
      (row_idx : Int) == r && (cell_idx : Int) == c && pyIn field_name cell_text
  | .same_cell_with_context r context field_name =>
      if (row_idx : Int) == r && pyIn field_name cell_text then
        if cell_idx > 0 then
          pyIn context (row.getD (cell_idx - 1) "")
        else false
      else false

/-! ## The cell filler (`_fill_cell_by_position`) -/

/-- `_fill_cell_by_position(cell, row, cell_idx, field_value, position_info)`:
returns the success flag and the updated row of cell texts.  `next_cell`
replaces the next cell's text wholesale; `same_cell_with_context` appends a
paragraph to the matched cell (`cell.add_paragraph`), which suffixes a newline
plus the value to the cell's text. -/
def _fill_cell_by_position (row : List String) (cell_idx : Nat)
    (field_value : String) (position_info : PositionInfo) : Bool × List String :=
  match position_info with
  | .next_cell _ _ _ =>
      if cell_idx + 1 < row.length then
        (true, row.set (cell_idx + 1) field_value)
      else (false, row)
  | .same_cell_with_context _ _ _ =>
      (true, row.set cell_idx (row.getD cell_idx "" ++ "\n" ++ field_value))

/-! ## The fill engine (`stage3_position_aware_template_filling`) -/

/-- The value preview recorded in `filled_fields`:
`field_value[:50] + ('...' if len(field_value) > 50 else '')`. -/
def preview (field_value : String) : String :=
  field_value.take 50 ++ (if field_value.length > 50 then "..." else "")

/-- The `position_matches` index the engine builds before scanning: every key
of `mapped_data` with a truthy (non-empty) value whose key decodes, paired with
its descriptor, in insertion order. -/
def position_matches (mapped_data : List (String × String)) :
    List (String × PositionInfo) :=
  mapped_data.filterMap (fun p =>
    if p.2 = "" then none
    else (_parse_position_key p.1).map (fun info => (p.1, info)))

/-- The inner `for field_key, field_value in mapped_data.items()` loop at one
cell: every candidate is tested (none is ever removed after a match); a match
triggers `_fill_cell_by_position` on the live row and appends to
`filled_fields` or `skipped_fields`.  `cell_text` was read (and stripped) once
before this loop. -/
def fillLoop (pm : List (String × PositionInfo)) (row_idx cell_idx : Nat)
    (cell_text : String) :
    List (String × String) → List String → List String → List String →
    List String × List String × List String
  | [], row, filled, skipped => (row, filled, skipped)
  | (field_key, field_value) :: fields, row, filled, skipped =>
      if field_value = "" then
        fillLoop pm row_idx cell_idx cell_text fields row filled skipped
      else
        match pm.lookup field_key with
        | none => fillLoop pm row_idx cell_idx cell_text fields row filled skipped
        | some position_info =>
            if _is_position_match row_idx cell_idx cell_text position_info row then
              let res := _fill_cell_by_position row cell_idx field_value position_info
              if res.1 then
                fillLoop pm row_idx cell_idx cell_text fields res.2
                  (filled ++ [field_key ++ " -> " ++ preview field_value]) skipped
              else
                fillLoop pm row_idx cell_idx cell_text fields res.2
                  filled (skipped ++ [field_key ++ ": 填充失败"])
            else fillLoop pm row_idx cell_idx cell_text fields row filled skipped

/-- The `for cell_idx, cell in enumerate(row.cells)` loop, starting at
`cell_idx` with `fuel` cells left to visit (`fuel` is fixed at the row's cell
count, which filling never changes).  Each visit reads the live cell text and
strips it before testing candidates. -/
def scanRowAux (pm : List (String × PositionInfo))
    (mapped_data : List (String × String)) (row_idx : Nat) :
    Nat → Nat → List String → List String → List String →
    List String × List String × List String
  | 0, _, row, filled, skipped => (row, filled, skipped)
  | fuel + 1, cell_idx, row, filled, skipped =>
      let cell_text := pyStrip (row.getD cell_idx "")
      let res := fillLoop pm row_idx cell_idx cell_text mapped_data row filled skipped
      scanRowAux pm mapped_data row_idx fuel (cell_idx + 1) res.1 res.2.1 res.2.2

/-- One row of the scan. -/
def scanRow (pm : List (String × PositionInfo))
    (mapped_data : List (String × String)) (row_idx : Nat)
    (row : List String) (filled skipped : List String) :
    List String × List String × List String :=
  scanRowAux pm mapped_data row_idx row.length 0 row filled skipped

/-- The `for row_idx, row in enumerate(table.rows)` loop.  Both fill types
mutate only the row being visited, so rows are processed independently. -/
def scanRowsAux (pm : List (String × PositionInfo))
    (mapped_data : List (String × String)) :
    Nat → List (List String) → List String → List String →
    List (List String) × List String × List String
  | _, [], filled, skipped => ([], filled, skipped)
  | row_idx, row :: rows, filled, skipped =>
      let res := scanRow pm mapped_data row_idx row filled skipped
      let rest := scanRowsAux pm mapped_data (row_idx + 1) rows res.2.1 res.2.2
      (res.1 :: rest.1, rest.2.1, rest.2.2)

/-- `stage3_position_aware_template_filling`, restricted to its in-memory
effect: the document is its list of tables (each a list of rows of cell
texts).  With no tables it returns `False` at once, touching nothing;
otherwise it builds `position_matches`, scans `doc.tables[0]` in row-major
order, and returns success together with the mutated document and the
`filled_fields` / `skipped_fields` logs.  (File I/O and logging are outside
the model; the final `_validate_unfilled_fields` call only logs.) -/
def stage3_position_aware_template_filling (tables : List (List (List String)))
    (mapped_data : List (String × String)) :
    Bool × List (List (List String)) × List String × List String :=
  match tables with
  | [] => (false, [], [], [])
  | table :: rest =>
      let pm := position_matches mapped_data
      let res := scanRowsAux pm mapped_data 0 table [] []
      (true, res.1 :: rest, res.2.1, res.2.2)

/-! ## The fallback field mapper (`_fallback_field_mapping`) -/

/-- The fixed `mapping_rules` table: canonical key and synonym tokens. -/
def mapping_rules : List (String × List String) :=
  [("serial_number", ["编号", "number", "id"]),
   ("project_name", ["项目名称", "name", "title"]),
   ("review_date", ["复核日期", "date", "check_date"]),
   ("original_condition_review", ["原形制", "original_state", "original_form"]),
   ("damage_assessment_review", ["病害和残损", "damage", "deterioration"]),
   ("repair_plan_review", ["修缮做法", "repair_method", "repair_plan"]),
   ("project_lead", ["项目负责人", "project_manager", "manager", "lead"]),
   ("reviewer", ["复核人员", "reviewers", "checker"])]

/-- The direct-containment test:
`input_key in template_key or any(rule in template_key for rule_list in
mapping_rules.values() for rule in rule_list)`. -/
def directMatch (input_key template_key : String) : Bool :=
  pyIn input_key template_key ||
    mapping_rules.any (fun r => r.2.any (fun rule => pyIn rule template_key))

/-- The inner `for semantic_key, possible_names in mapping_rules` loop: `true`
iff it reaches an assignment (`input_key` is the canonical key or a synonym of
a group whose synonyms also appear in `template_key`); Python then breaks out
of this loop only, and the assigned value is always the current input value. -/
def semanticScan (input_key template_key : String) :
    List (String × List String) → Bool
  | [] => false
  | (semantic_key, possible_names) :: rules =>
      if (possible_names.contains input_key || input_key == semantic_key)
          && possible_names.any (fun name => pyIn name template_key) then
        true
      else semanticScan input_key template_key rules

/-- The `for input_key, input_value in input_data.items()` loop for one
template key; `acc` is the value currently recorded in `mapped_data` for that
key.  A direct match records and breaks; a semantic match records but does NOT
break the input loop (the Python `break` only leaves the rules loop), so the
iteration continues with the recorded value as the new accumulator. -/
def fallbackForKey (template_key : String) :
    List (String × String) → Option String → Option String
  | [], acc => acc
  | (input_key, input_value) :: input_data, acc =>
      if input_value = "" then
        fallbackForKey template_key input_data acc
      else if directMatch input_key template_key then
        some input_value
      else
        fallbackForKey template_key input_data
          (if semanticScan input_key template_key mapping_rules then
            some input_value
          else acc)

/-- `_fallback_field_mapping`: for each template key (in order) the final
value its `mapped_data` entry holds after the loops, absent keys omitted. -/
def _fallback_field_mapping (template_structure input_data : List (String × String)) :
    List (String × String) :=
  (template_structure.map Prod.fst).filterMap (fun template_key =>
    (fallbackForKey template_key input_data none).map (fun v => (template_key, v)))

/-! ## Unfilled-field accounting (`_validate_unfilled_fields`) -/

/-- `field.split(' -> ')[0]`: the key recorded in a `filled_fields` entry. -/
def field_key_of (field : String) : String :=
  ⟨splitFirst " -> ".data field.data⟩

/-- `_validate_unfilled_fields`: the `unfilled_keys` list it reports — every
template key (values are never consulted) not among the keys of the
`filled_fields` entries. -/
def _validate_unfilled_fields (template_structure : List (String × String))
    (filled_fields : List String) : List String :=
  let filled_field_keys := filled_fields.map field_key_of
  (template_structure.map Prod.fst).filter
    (fun key => !(filled_field_keys.contains key))

/-! ## Helper lemmas -/

/-- `chPre` decides list-prefix. -/
theorem chPre_eq_true_iff : ∀ a b : List Char, chPre a b = true ↔ List.IsPrefix a b
  | [], b => by simp [chPre, List.nil_prefix]
  | x :: xs, [] => by simp [chPre, List.prefix_nil]
  | x :: xs, y :: ys => by
      simp [chPre, List.cons_prefix_cons, chPre_eq_true_iff xs ys, and_comm]

/-- `chSub` decides contiguous-sublist containment. -/
theorem chSub_eq_true_iff : ∀ a b : List Char, chSub a b = true ↔ List.IsInfix a b
  | a, [] => by simp [chSub, chPre_eq_true_iff, List.infix_nil, List.prefix_nil]
  | a, y :: ys => by
      rw [chSub, List.infix_cons_iff]
      simp [chPre_eq_true_iff, chSub_eq_true_iff a ys]

/-- Python `in` is substring containment. -/
theorem pyIn_eq_true_iff (sub s : String) :
    pyIn sub s = true ↔ List.IsInfix sub.data s.data :=
  chSub_eq_true_iff _ _

/-- The empty string is contained in every string. -/
theorem pyIn_empty_left (s : String) : pyIn "" s = true := by
  rw [pyIn_eq_true_iff]
  exact ⟨[], s.data, rfl⟩

/-! ## Claim theorems -/

/-- Claim C3, counterexample: the decoder never tests whether the first
segment is the literal "row"; the key "foo_1_col_2_x" decodes to a valid
descriptor (row 0, col 1, field name "x") instead of being rejected. -/
theorem decode_ignores_first_segment_concrete :
    _parse_position_key "foo_1_col_2_x" =
      some (.next_cell 0 1 "x") := by decide

/-- Claim C3, amended: decoding is entirely independent of the first
underscore-separated segment — replacing it by any other string yields the
identical result, so a key whose first segment is not "row" decodes exactly
as the corresponding "row"-headed key does. -/
theorem decode_ignores_first_segment (p0 q0 p1 p2 p3 : String)
    (rest : List String) :
    parse_parts (p0 :: p1 :: p2 :: p3 :: rest) =
      parse_parts (q0 :: p1 :: p2 :: p3 :: rest) := rfl

/-- Claim C4, counterexample: a second segment parsing to the non-positive
integer 0 is not rejected; "row_0_col_2_x" decodes to a descriptor whose row
is the negative number -1. -/
theorem decode_accepts_nonpositive_row_concrete :
    _parse_position_key "row_0_col_2_x" =
      some (.next_cell (-1) 1 "x") := by decide

/-- Claim C4, amended: the decoder performs no sign check on the parsed
coordinates: whenever the second and fourth segments parse as integers n and m
and the third segment is "col", the result is a descriptor with row = n - 1
and col = m - 1, even when n (or m) is zero or negative. -/
theorem decode_no_row_positivity_check (p0 p1 p3 : String)
    (rest : List String) (n m : Int)
    (hn : pyInt p1 = some n) (hm : pyInt p3 = some m) :
    parse_parts (p0 :: p1 :: "col" :: p3 :: rest) =
      some (.next_cell (n - 1) (m - 1) (joinUnderscore rest)) := by
  simp [parse_parts, parse_body_parts, hn, hm]

/-- Witness for the amended C4 theorem at the concrete key segments of
"row_0_col_2_x". -/
theorem decode_no_row_positivity_check_witness :
    parse_parts ["row", "0", "col", "2", "x"] =
      some (.next_cell (0 - 1) (2 - 1) (joinUnderscore ["x"])) :=
  decode_no_row_positivity_check "row" "0" "2" ["x"] 0 2 (by decide) (by decide)

/-- Claim C7: a document with zero tables makes the fill pass report overall
failure immediately, with no cell of any table mutated (there are none) and
empty filled/skipped logs. -/
theorem no_tables_reports_failure (mapped_data : List (String × String)) :
    stage3_position_aware_template_filling [] mapped_data =
      (false, [], [], []) := rfl

/-- Claim C8: a NEXT_CELL fill at column `cell_idx` of a row with
`cell_idx + 1` in range writes the value into the cell at `cell_idx + 1`,
returns true, and leaves every other cell (the matched one included)
unchanged; out of range it returns false and changes nothing. -/
theorem next_cell_fill_spec (row : List String) (cell_idx : Nat)
    (field_value : String) (r c : Int) (fn : String) :
    (cell_idx + 1 < row.length →
       _fill_cell_by_position row cell_idx field_value (.next_cell r c fn) =
         (true, row.set (cell_idx + 1) field_value) ∧
       (row.set (cell_idx + 1) field_value).getD (cell_idx + 1) "" = field_value ∧
       ∀ j, j ≠ cell_idx + 1 →
         (row.set (cell_idx + 1) field_value).getD j "" = row.getD j "") ∧
    (row.length ≤ cell_idx + 1 →
       _fill_cell_by_position row cell_idx field_value (.next_cell r c fn) =
         (false, row)) := by
  constructor
  · intro h
    refine ⟨by simp [_fill_cell_by_position, h], ?_, ?_⟩
    · rw [List.getD_eq_getElem?_getD, List.getElem?_set_self (by omega)]
      rfl
    · intro j hj
      rw [List.getD_eq_getElem?_getD, List.getElem?_set_ne (Ne.symm hj),
        ← List.getD_eq_getElem?_getD]
  · intro h
    simp [_fill_cell_by_position, Nat.not_lt.mpr h]

/-- Witness for C8 on the concrete row ["a", "b"] (in-range branch) and the
concrete row ["a"] (out-of-range branch). -/
theorem next_cell_fill_spec_witness :
    _fill_cell_by_position ["a", "b"] 0 "V" (.next_cell 0 0 "x") =
      (true, ["a", "V"]) ∧
    _fill_cell_by_position ["a"] 0 "V" (.next_cell 0 0 "x") =
      (false, ["a"]) :=
  ⟨((next_cell_fill_spec ["a", "b"] 0 "V" 0 0 "x").1 (by decide)).1,
   (next_cell_fill_spec ["a"] 0 "V" 0 0 "x").2 (by decide)⟩

/-- Claim C9: decoding is total and effect-free — for every input string the
body either returns a result that the function passes through, or raises one
of the modelled exceptions, which the handler turns into `none`; in no case
does an exception escape (`_parse_position_key` always yields an
`Option PositionInfo`). -/
theorem decode_total_never_raises (position_key : String) :
    (∃ e, parse_body position_key = .error e ∧
       _parse_position_key position_key = none) ∨
    (∃ r, parse_body position_key = .ok r ∧
       _parse_position_key position_key = r) := by
  unfold _parse_position_key
  cases h : parse_body position_key with
  | ok r => exact .inr ⟨r, rfl, rfl⟩
  | error e => exact .inl ⟨e, rfl, rfl⟩

/-- Claim C5, counterexample: the reported unfilled list is computed from ALL
template keys, ignoring their values.  With one template key "a" whose
intended value is empty and no filled fields, the claim predicts an empty
unfilled set of size (count of non-empty-valued keys) - J = 0 - 0 = 0, but
the code reports ["a"], of size 1. -/
theorem unfilled_ignores_value_concrete :
    _validate_unfilled_fields [("a", "")] [] = ["a"] ∧
    (([("a", "")].filter (fun p => p.2 != "")).map Prod.fst) = [] := by decide

/-- Claim C5, amended: the unfilled list is exactly the template keys — with
no non-emptiness filter on their values — that are not among the keys of the
filled entries (each filled entry's key being its prefix before " -> "), and
its size is the number of template keys minus the number of template keys
that do appear among the filled keys. -/
theorem unfilled_counts_all_template_keys
    (template_structure : List (String × String))
    (filled_fields : List String) :
    _validate_unfilled_fields template_structure filled_fields =
      (template_structure.map Prod.fst).filter
        (fun key => !((filled_fields.map field_key_of).contains key)) ∧
    (_validate_unfilled_fields template_structure filled_fields).length =
      template_structure.length -
        ((template_structure.map Prod.fst).filter
          (fun key => (filled_fields.map field_key_of).contains key)).length := by
  refine ⟨rfl, ?_⟩
  have h := List.length_eq_length_filter_add
    (l := template_structure.map Prod.fst)
    (fun key => (filled_fields.map field_key_of).contains key)
  simp only [List.length_map] at h
  simp only [_validate_unfilled_fields]
  omega

/-- Claim C2: the match predicate holds exactly as specified — for NEXT_CELL,
row and column must equal the descriptor's coordinates and the field name
must be a substring of the cell text; for SAME_CELL_WITH_CONTEXT, the row
must match, the field name must be a substring of the cell text, the column
must be positive, and the context must be a substring of the text of the cell
immediately to the left; nothing else matches. -/
theorem is_position_match_spec (row_idx cell_idx : Nat) (cell_text : String)
    (info : PositionInfo) (row : List String) (_h : cell_idx < row.length) :
    _is_position_match row_idx cell_idx cell_text info row = true ↔
      ((∃ r c fn, info = .next_cell r c fn ∧ (row_idx : Int) = r ∧
          (cell_idx : Int) = c ∧ List.IsInfix fn.data cell_text.data) ∨
       (∃ r ctx fn, info = .same_cell_with_context r ctx fn ∧
          (row_idx : Int) = r ∧ List.IsInfix fn.data cell_text.data ∧
          0 < cell_idx ∧
          List.IsInfix ctx.data (row.getD (cell_idx - 1) "").data)) := by
  cases info with
  | next_cell r c fn =>
      simp only [_is_position_match, Bool.and_eq_true, beq_iff_eq,
        pyIn_eq_true_iff]
      constructor
      · rintro ⟨⟨h1, h2⟩, h3⟩
        exact .inl ⟨r, c, fn, rfl, h1, h2, h3⟩
      · rintro (⟨r', c', fn', heq, h1, h2, h3⟩ | ⟨r', ctx', fn', heq, _⟩)
        · rw [PositionInfo.next_cell.injEq] at heq
          obtain ⟨rfl, rfl, rfl⟩ := heq
          exact ⟨⟨h1, h2⟩, h3⟩
        · exact absurd heq (by simp)
  | same_cell_with_context r ctx fn =>
      constructor
      · intro hm
        simp only [_is_position_match] at hm
        by_cases h1 : ((row_idx : Int) == r && pyIn fn cell_text) = true
        · rw [if_pos h1] at hm
          by_cases h2 : cell_idx > 0
          · rw [if_pos h2] at hm
            simp only [Bool.and_eq_true, beq_iff_eq] at h1
            exact .inr ⟨r, ctx, fn, rfl, h1.1, (pyIn_eq_true_iff _ _).mp h1.2,
              h2, (pyIn_eq_true_iff _ _).mp hm⟩
          · rw [if_neg h2] at hm
            exact absurd hm (by simp)
        · rw [if_neg h1] at hm
          exact absurd hm (by simp)
      · rintro (⟨r', c', fn', heq, _⟩ |
          ⟨r', ctx', fn', heq, hr, hfn, hpos, hctx⟩)
        · exact absurd heq (by simp)
        · rw [PositionInfo.same_cell_with_context.injEq] at heq
          obtain ⟨rfl, rfl, rfl⟩ := heq
          simp only [_is_position_match]
          have hcond : ((row_idx : Int) == r && pyIn fn cell_text) = true := by
            simp [hr, pyIn_eq_true_iff, hfn]
          rw [if_pos hcond, if_pos hpos]
          exact (pyIn_eq_true_iff _ _).mpr hctx

/-- Witness for C2 at a concrete matching SAME_CELL_WITH_CONTEXT instance:
row ["C", "L"], descriptor row 0 / context "C" / field name "L", cell (0,1). -/
theorem is_position_match_spec_witness :
    _is_position_match 0 1 "L" (.same_cell_with_context 0 "C" "L")
        ["C", "L"] = true ↔
      ((∃ r c fn, PositionInfo.same_cell_with_context 0 "C" "L" =
          .next_cell r c fn ∧ ((0 : Nat) : Int) = r ∧
          ((1 : Nat) : Int) = c ∧ List.IsInfix fn.data "L".data) ∨
       (∃ r ctx fn, PositionInfo.same_cell_with_context 0 "C" "L" =
          .same_cell_with_context r ctx fn ∧ ((0 : Nat) : Int) = r ∧
          List.IsInfix fn.data "L".data ∧ 0 < 1 ∧
          List.IsInfix ctx.data (["C", "L"].getD (1 - 1) "").data)) :=
  is_position_match_spec 0 1 "L" (.same_cell_with_context 0 "C" "L")
    ["C", "L"] (by decide)

/-- A successful semantic scan found a group one of whose synonyms occurs in
the template key. -/
theorem semanticScan_imp_any (input_key template_key : String) :
    ∀ rules : List (String × List String),
      semanticScan input_key template_key rules = true →
      rules.any (fun r => r.2.any (fun rule => pyIn rule template_key)) = true
  | [], h => by simp [semanticScan] at h
  | (semantic_key, possible_names) :: rules, h => by
      rw [semanticScan] at h
      simp only [List.any_cons]
      by_cases hc : ((possible_names.contains input_key ||
          input_key == semantic_key)
          && possible_names.any (fun name => pyIn name template_key)) = true
      · rw [Bool.and_eq_true] at hc
        rw [hc.2, Bool.true_or]
      · rw [if_neg hc] at h
        rw [semanticScan_imp_any input_key template_key rules h, Bool.or_true]

/-- Hence a semantic match always implies a direct match: the direct rule's
second disjunct already fires whenever the template key contains any synonym
of any group. -/
theorem semanticScan_imp_direct (input_key template_key : String)
    (h : semanticScan input_key template_key mapping_rules = true) :
    directMatch input_key template_key = true := by
  unfold directMatch
  rw [semanticScan_imp_any input_key template_key mapping_rules h]
  simp

/-- The per-template-key loop returns the value of the first input field with
a non-empty value satisfying the direct or semantic rule: since a semantic
match implies a direct match, the loop in fact only ever commits via the
direct branch, which breaks immediately. -/
theorem fallbackForKey_eq_find (template_key : String) :
    ∀ input_data : List (String × String),
      fallbackForKey template_key input_data none =
        (input_data.find? (fun p => p.2 != "" &&
          (directMatch p.1 template_key ||
            semanticScan p.1 template_key mapping_rules))).map Prod.snd
  | [] => rfl
  | (input_key, input_value) :: input_data => by
      rw [fallbackForKey]
      by_cases hv : input_value = ""
      · rw [if_pos hv, List.find?_cons_of_neg _ (by simp [hv]),
          fallbackForKey_eq_find template_key input_data]
      · rw [if_neg hv]
        by_cases hd : directMatch input_key template_key = true
        · rw [if_pos hd, List.find?_cons_of_pos _ (by simp [hv, hd])]
          rfl
        · have hd' : directMatch input_key template_key = false := by
            cases hdm : directMatch input_key template_key
            · rfl
            · exact absurd hdm hd
          have hs : semanticScan input_key template_key mapping_rules = false := by
            cases hsc : semanticScan input_key template_key mapping_rules
            · rfl
            · exact absurd (semanticScan_imp_direct input_key template_key hsc) hd
          rw [if_neg hd, if_neg (show ¬(semanticScan input_key template_key
              mapping_rules = true) by rw [hs]; exact Bool.false_ne_true),
            List.find?_cons_of_neg _ (by simp [hd', hs]),
            fallbackForKey_eq_find template_key input_data]

/-- Claim C6: in the fallback mapper, each template key is mapped to the value
of the first input field (in insertion order) whose value is non-empty and
which satisfies the direct-containment rule or the semantic rule; once that
first field fixes the mapping, no later input field changes it, and template
keys with no satisfying field are absent from the output. -/
theorem fallback_first_satisfying_input_wins
    (template_structure input_data : List (String × String)) :
    _fallback_field_mapping template_structure input_data =
      (template_structure.map Prod.fst).filterMap (fun template_key =>
        (input_data.find? (fun p => p.2 != "" &&
          (directMatch p.1 template_key ||
            semanticScan p.1 template_key mapping_rules))).map
          (fun p => (template_key, p.2))) := by
  unfold _fallback_field_mapping
  congr 1
  funext template_key
  rw [fallbackForKey_eq_find]
  cases input_data.find? (fun p => p.2 != "" &&
      (directMatch p.1 template_key ||
        semanticScan p.1 template_key mapping_rules)) with
  | none => rfl
  | some p => rfl

/-- Claim C10: a key with exactly four underscore-separated segments that
decodes successfully yields a descriptor whose field name is the empty
string; the empty field name passes the substring test against every cell
text, so matching such a descriptor is independent of the cell's own text —
it degenerates to the coordinate anchor (NEXT_CELL) or the row-and-left-
context anchor (SAME_CELL_WITH_CONTEXT). -/
theorem four_segment_empty_field_name (s : String) (info : PositionInfo)
    (h4 : (pySplit s '_').length = 4)
    (hd : _parse_position_key s = some info) :
    fieldNameOf info = "" ∧
    (∀ t : String, pyIn (fieldNameOf info) t = true) ∧
    (∀ (row_idx cell_idx : Nat) (t t' : String) (row : List String),
       _is_position_match row_idx cell_idx t info row =
         _is_position_match row_idx cell_idx t' info row) := by
  unfold _parse_position_key parse_body at hd
  rcases hp : pySplit s '_' with _ | ⟨a, _ | ⟨b, _ | ⟨c, _ | ⟨d, _ | ⟨e, tl⟩⟩⟩⟩⟩ <;>
    rw [hp] at h4 hd <;> simp only [List.length] at h4 <;> try omega
  simp only [parse_body_parts, joinUnderscore] at hd
  cases hb : pyInt b with
  | none =>
      simp only [hb] at hd
      exact absurd hd (by simp)
  | some n =>
      simp only [hb] at hd
      by_cases hc : c = "col"
      · rw [if_pos hc] at hd
        cases hm : pyInt d with
        | none =>
            simp only [hm] at hd
            exact absurd hd (by simp)
        | some m =>
            simp only [hm] at hd
            simp only [Option.some.injEq] at hd
            subst hd
            refine ⟨rfl, fun t => pyIn_empty_left t, fun ri ci t t' row => ?_⟩
            simp [_is_position_match, fieldNameOf, pyIn_empty_left]
      · rw [if_neg hc] at hd
        by_cases hl : c = "left"
        · rw [if_pos hl] at hd
          simp only [Option.some.injEq] at hd
          subst hd
          refine ⟨rfl, fun t => pyIn_empty_left t, fun ri ci t t' row => ?_⟩
          simp [_is_position_match, fieldNameOf, pyIn_empty_left]
        · rw [if_neg hl] at hd
          exact absurd hd (by simp)

/-- Witness for C10 at the concrete four-segment key "row_2_col_1", which
decodes to a NEXT_CELL descriptor for row 1, column 0 with empty field name. -/
theorem four_segment_empty_field_name_witness :
    fieldNameOf (.next_cell 1 0 "") = "" ∧
    (∀ t : String, pyIn (fieldNameOf (PositionInfo.next_cell 1 0 "")) t = true) ∧
    (∀ (row_idx cell_idx : Nat) (t t' : String) (row : List String),
       _is_position_match row_idx cell_idx t (.next_cell 1 0 "") row =
         _is_position_match row_idx cell_idx t' (.next_cell 1 0 "") row) :=
  four_segment_empty_field_name "row_2_col_1" (.next_cell 1 0 "")
    (by decide) (by decide)

/-- Claim C1, counterexample: a candidate field is never marked resolved.
With the single SAME_CELL_WITH_CONTEXT candidate "row_1_left_C_L" and the row
["C", "L", "C", "L"], cells (0,1) and (0,3) both satisfy the predicate, and
BOTH receive the value — the second occurrence is filled too (and the filled
log records the same field twice), contradicting first-match-wins. -/
theorem duplicate_label_both_filled_concrete :
    stage3_position_aware_template_filling [[["C", "L", "C", "L"]]]
        [("row_1_left_C_L", "V")] =
      (true, [[["C", "L\nV", "C", "L\nV"]]],
        ["row_1_left_C_L -> V", "row_1_left_C_L -> V"], []) := by decide

/-- Claim C1, amended: once a candidate field has matched a cell it is NOT
marked resolved — the engine keeps testing it against every later cell of the
scan, so when two cells in scan order both satisfy a descriptor's match
predicate, each occurrence receives a fill: for any non-empty value, the scan
of ["C", "L", "C", "L"] against the SAME_CELL_WITH_CONTEXT candidate
"row_1_left_C_L" appends the value to BOTH matching cells and logs the field
as filled twice. -/
theorem duplicate_label_both_filled (v : String) (h : v ≠ "") :
    stage3_position_aware_template_filling [[["C", "L", "C", "L"]]]
        [("row_1_left_C_L", v)] =
      (true, [[["C", "L" ++ "\n" ++ v, "C", "L" ++ "\n" ++ v]]],
        ["row_1_left_C_L -> " ++ preview v,
         "row_1_left_C_L -> " ++ preview v], []) := by
  simp +decide [stage3_position_aware_template_filling, position_matches,
    List.filterMap_cons, scanRowsAux, scanRow, scanRowAux, fillLoop,
    _is_position_match, _fill_cell_by_position, List.lookup, preview, h,
    pyStrip, List.getD, List.set]

/-- Witness for the amended C1 theorem at the concrete non-empty value "W". -/
theorem duplicate_label_both_filled_witness :
    stage3_position_aware_template_filling [[["C", "L", "C", "L"]]]
        [("row_1_left_C_L", "W")] =
      (true, [[["C", "L" ++ "\n" ++ "W", "C", "L" ++ "\n" ++ "W"]]],
        ["row_1_left_C_L -> " ++ preview "W",
         "row_1_left_C_L -> " ++ preview "W"], []) :=
  duplicate_label_both_filled "W" (by decide)

end DocGen
